import Mathlib

/-!
Verification of the crew-research-container HTTP service.

This file gives a shallow embedding of the task-tracking, storage-fallback,
authentication and report-formatting logic of the repository's two FastAPI
modules, `src/api/api.py` (file-based variant) and `src/api/api_supabase.py`
(hosted-backend variant), and proves or refutes the specification's claims
about them.

Conventions of the embedding:
- Python dicts holding task records become the `TaskRecord` structure with
  `Option` fields (`none` = key absent).
- HTTP handlers become pure functions returning `Except (Nat × String) r`:
  `.error (code, detail)` models `raise HTTPException(status_code, detail)`.
- The in-memory cache `task_results` and the persistent store are passed in
  as functions `String → Option TaskRecord`.
- Background execution (`run_crew_task`) is modelled by the ordered list of
  task-record writes it performs, parameterised by the outcomes of the
  external calls (crew kickoff, hosted backend) that the code branches on.
- Python string helpers (`rstrip`, `strip`, `lower`, `startswith`, `split`,
  slicing) are re-implemented character-by-character so that every theorem
  can be evaluated on concrete inputs.  `lower` is per-character, matching
  Python on the ASCII inputs the service manipulates.
-/

deriving instance DecidableEq for Except

namespace CrewAPI

/-! ## Python string primitives -/

/-- Characters treated as whitespace by Python's `str.strip` / `str.rstrip`. -/
def pyWS (c : Char) : Bool :=
  c = ' ' || c = '\t' || c = '\n' || c = '\r' || c = '\x0b' || c = '\x0c'

/-- Python `str.rstrip()` with no argument. -/
def pyRstrip (s : String) : String :=
  ⟨(s.data.reverse.dropWhile pyWS).reverse⟩

/-- Python `str.strip()` with no argument. -/
def pyStrip (s : String) : String :=
  ⟨((s.data.dropWhile pyWS).reverse.dropWhile pyWS).reverse⟩

/-- Helper for `pyStarts`: does the pattern (first argument) head the list? -/
def lstarts : List Char → List Char → Bool
  | [], _ => true
  | _ :: _, [] => false
  | p :: ps, c :: cs => p = c && lstarts ps cs

/-- Python `s.startswith(pat)`. -/
def pyStarts (s pat : String) : Bool :=
  lstarts pat.data s.data

/-- Python slicing `s[n:]`. -/
def pyDrop (s : String) (n : Nat) : String :=
  ⟨s.data.drop n⟩

/-- Python `s.lower()` (per character; the service only lowercases ASCII). -/
def pyLower (s : String) : String :=
  ⟨s.data.map Char.toLower⟩

/-- Python `s.split("\n")`: split on every newline, keeping empty pieces. -/
def splitNl : List Char → List (List Char)
  | [] => [[]]
  | c :: cs =>
    let r := splitNl cs
    if c = '\n' then [] :: r
    else
      match r with
      | [] => [[c]]
      | h :: t => (c :: h) :: t

/-- The lines of a text, as Python's `text.split("\n")` produces them. -/
def linesOf (text : String) : List String :=
  (splitNl text.data).map (fun l => ⟨l⟩)

/-! ## Data model -/

/-- A task record as stored in the `task_results` dict, the per-task JSON
files and the hosted backend.  `none` models an absent key. -/
structure TaskRecord where
  status : Option String := none
  result : Option String := none
  message : Option String := none
  created_at : Option String := none
  updated_at : Option String := none
deriving DecidableEq, Repr, Inhabited

/-- The JSON body produced by the status and run endpoints (the fields of the
`CrewResponse` pydantic model). -/
structure StatusResponse where
  status : String
  result : Option String := none
  message : Option String := none
  task_id : Option String := none
deriving DecidableEq, Repr

/-- The `BLOCKED_TASK_IDS` constant of `src/api/api.py`. -/
def BLOCKED_TASK_IDS : List String :=
  ["1e471e2b-948c-4695-be24-c63a2e84260d"]

/-! ## Authentication (`get_api_key`, identical in both API modules)

`API_KEY = os.getenv("API_KEY")` is modelled as `Option String`; Python's
`if not API_KEY` is true both when the variable is unset (`none`) and when it
is set to the empty string. -/

/-- Embedding of `get_api_key`: `.ok` is a request that passes (carrying the
value the dependency returns), `.error (401, _)` the raised `HTTPException`. -/
def get_api_key (apiKey : Option String) (header : Option String) :
    Except (Nat × String) (Option String) :=
  match apiKey with
  | none => .ok none
  | some k =>
    if k = "" then .ok none
    else if header = some k then .ok header
    else .error (401, "Invalid API Key")

/-! ## Background execution traces (`run_crew_task`)

The claims about the task lifecycle concern the sequence of task-record
writes the background job performs for its id.  Each write goes to the
in-memory dict and (where the code does so) to storage with the same record;
the trace below lists the records in write order.  The outcomes of the
external calls that the code branches on are parameters. -/

/-- Is a record's status terminal (`success` or `error`)? -/
def isTerminal (r : TaskRecord) : Bool :=
  r.status == some "success" || r.status == some "error"

/-- Write trace of `run_crew_task` in `src/api/api.py`.  `hasKey` is the
`OPENAI_API_KEY` check; `crewRun` is the outcome of constructing the crew and
calling `crew.crew().kickoff()` (`.error e` = an exception with text `e`). -/
def run_crew_task_writes (hasKey : Bool) (crewRun : Except String String) :
    List TaskRecord :=
  if !hasKey then
    [{ status := some "error", message := some "OPENAI_API_KEY not configured" }]
  else
    { status := some "processing" } ::
    match crewRun with
    | .ok r => [{ status := some "success", result := some r }]
    | .error e => [{ status := some "error", message := some e }]

/-- Write trace of `run_crew_task` in `src/api/api_supabase.py`.  `runOutcome`
is `crew.run_crew(...)`: `.error e` = exception, `.ok none` = falsy result,
`.ok (some r)` = truthy result `r`.  `supabaseAvailable` and `saveReportOk`
are the branches taken after a truthy result. -/
def run_crew_task_writes_sb (crewName : String)
    (runOutcome : Except String (Option String))
    (supabaseAvailable saveReportOk : Bool) : List TaskRecord :=
  { status := some "running", message := some "Task is running..." } ::
  match runOutcome with
  | .error e => [{ status := some "error", message := some e }]
  | .ok none =>
    [{ status := some "error",
       message := some "Crew execution failed to produce a result" }]
  | .ok (some res) =>
    if !supabaseAvailable then
      [{ status := some "error",
         message := some "Supabase is not available. Cannot save report." }]
    else if saveReportOk then
      [{ status := some "success", result := some res }]
    else
      [{ status := some "error",
         message := some ("Failed to save report for crew '" ++ crewName ++ "'") }]

/-! ## Theorems: C5 and C1 -/

/-- C5: when no API key is configured in the environment (unset, or set to the
empty string, which Python's `if not API_KEY` treats the same way), every
request is accepted whatever `X-API-Key` header it carries; when a non-empty
key is configured, a request is accepted exactly when its header equals the
key, and rejected with HTTP 401 otherwise. -/
theorem get_api_key_spec :
    (∀ h : Option String, get_api_key none h = .ok none ∧
        get_api_key (some "") h = .ok none) ∧
    (∀ (k : String) (h : Option String), k ≠ "" →
        (h = some k → get_api_key (some k) h = .ok h) ∧
        (h ≠ some k → get_api_key (some k) h = .error (401, "Invalid API Key"))) := by
  refine ⟨fun h => ⟨rfl, rfl⟩, fun k h hk => ⟨fun he => ?_, fun hne => ?_⟩⟩
  · simp [get_api_key, hk, he]
  · simp [get_api_key, hk, hne]

/-- Witness for `get_api_key_spec` at a concrete configured key and a
non-matching header. -/
theorem get_api_key_spec_witness :
    get_api_key (some "secret") (some "wrong") = .error (401, "Invalid API Key") :=
  (get_api_key_spec.2 "secret" (some "wrong") (by decide)).2 (by decide)

/-- C1: in both background execution paths, a terminal write (`success` or
`error`) is only ever the last write of the trace: every write that is
followed by another write is non-terminal, so a task record never reverts
from a terminal state. -/
theorem terminal_write_is_last :
    (∀ (hasKey : Bool) (crewRun : Except String String) (i : Nat),
        i + 1 < (run_crew_task_writes hasKey crewRun).length →
        isTerminal ((run_crew_task_writes hasKey crewRun).getD i default) = false) ∧
    (∀ (crewName : String) (runOutcome : Except String (Option String))
        (sbAvail saveOk : Bool) (i : Nat),
        i + 1 < (run_crew_task_writes_sb crewName runOutcome sbAvail saveOk).length →
        isTerminal ((run_crew_task_writes_sb crewName runOutcome sbAvail saveOk).getD i default) = false) := by
  constructor
  · intro hasKey crewRun i hi
    cases hasKey with
    | false =>
      have hl : (run_crew_task_writes false crewRun).length = 1 := rfl
      rw [hl] at hi
      omega
    | true =>
      have hl : (run_crew_task_writes true crewRun).length = 2 := by
        cases crewRun with
        | ok r => rfl
        | error e => rfl
      rw [hl] at hi
      have h0 : i = 0 := by omega
      subst h0
      rfl
  · intro crewName runOutcome sbAvail saveOk i hi
    have hl : (run_crew_task_writes_sb crewName runOutcome sbAvail saveOk).length = 2 := by
      cases runOutcome with
      | error e => rfl
      | ok o =>
        cases o with
        | none => rfl
        | some res => cases sbAvail <;> cases saveOk <;> rfl
    rw [hl] at hi
    have h0 : i = 0 := by omega
    subst h0
    rfl

/-! ## The status endpoint (`get_task_status` in both API modules)

`src/api/api.py` serves `GET /task/{task_id}` and checks the deny-list before
any lookup; `src/api/api_supabase.py` serves `GET /status/{task_id}` and has
no deny-list check at all (its leftover `is_blocked` helper always returns
`False` and is never called here). -/

/-- The normalisation both handlers apply to a found record: ensure the
`result` key holds a string before building the response. -/
def normalizeRecord (r : TaskRecord) : TaskRecord :=
  if r.result = none ∧ r.status = some "error" then
    { r with result := some (r.message.getD "Unknown error") }
  else if r.result = none then
    { r with result := some "" }
  else r

/-- The response dict both handlers build from a found (normalised) record. -/
def foundResponse (r : TaskRecord) (tid : Option String) : StatusResponse :=
  let r' := normalizeRecord r
  { status := r'.status.getD "unknown", result := some (r'.result.getD ""),
    message := r'.message, task_id := tid }

/-- The response `api.py` returns for a deny-listed task id. -/
def blockedResponse : StatusResponse :=
  { status := "blocked", result := some "",
    message := some "This task ID is blocked due to known issues" }

/-- Embedding of `get_task_status` from `src/api/api.py`: deny-list check,
then the in-memory cache, then the task-file store, else 404. -/
def get_task_status (cache storagef : String → Option TaskRecord)
    (task_id : String) : Except (Nat × String) StatusResponse :=
  if task_id ∈ BLOCKED_TASK_IDS then .ok blockedResponse
  else
    match cache task_id with
    | some r => .ok (foundResponse r none)
    | none =>
      match storagef task_id with
      | some r => .ok (foundResponse r none)
      | none => .error (404, "Task not found")

/-- Embedding of `get_task_status` from `src/api/api_supabase.py`: cache, then
storage, else 404; no deny-list check; the response echoes the task id. -/
def get_task_status_sb (cache storagef : String → Option TaskRecord)
    (task_id : String) : Except (Nat × String) StatusResponse :=
  match cache task_id with
  | some r => .ok (foundResponse r (some task_id))
  | none =>
    match storagef task_id with
    | some r => .ok (foundResponse r (some task_id))
    | none => .error (404, "Task not found")

/-! ## Theorems: C2, C3, C10 -/

/-- C2 counterexample: the Supabase variant's status endpoint performs no
deny-list check.  With the deny-listed id present in the cache as a completed
task, it returns that task's status (`success`), not `blocked`. -/
theorem get_task_status_sb_ignores_blocklist :
    get_task_status_sb
        (fun t => if t = "1e471e2b-948c-4695-be24-c63a2e84260d" then
            some { status := some "success", result := some "done" } else none)
        (fun _ => none) "1e471e2b-948c-4695-be24-c63a2e84260d" =
      .ok { status := "success", result := some "done", message := none,
            task_id := some "1e471e2b-948c-4695-be24-c63a2e84260d" } ∧
    ("success" : String) ≠ "blocked" := by
  exact ⟨rfl, by decide⟩

/-- C2 (amended): in the file-based variant `api.py`, a deny-listed task id
always yields the `blocked` response, and the outcome is independent of the
cache and storage contents (the deny-list check precedes any lookup).  The
Supabase variant has no deny-list check. -/
theorem blocked_id_short_circuits :
    ∀ (cache storagef cache' storagef' : String → Option TaskRecord)
      (task_id : String), task_id ∈ BLOCKED_TASK_IDS →
      get_task_status cache storagef task_id = .ok blockedResponse ∧
      get_task_status cache storagef task_id =
        get_task_status cache' storagef' task_id := by
  intro c s c' s' tid h
  constructor <;> simp [get_task_status, h]

/-- Witness for `blocked_id_short_circuits` at the concrete deny-listed id
with empty cache and storage. -/
theorem blocked_id_short_circuits_witness :
    get_task_status (fun _ => none) (fun _ => none)
        "1e471e2b-948c-4695-be24-c63a2e84260d" = .ok blockedResponse :=
  (blocked_id_short_circuits (fun _ => none) (fun _ => none)
    (fun _ => none) (fun _ => none) _ (by decide)).1

/-- C3 counterexample: in `api.py`, the deny-listed id is absent from both the
cache and storage (it was never submitted), yet the endpoint answers `blocked`
with HTTP 200 rather than a 404 error. -/
theorem blocked_id_not_404 :
    get_task_status (fun _ => none) (fun _ => none)
        "1e471e2b-948c-4695-be24-c63a2e84260d" = .ok blockedResponse ∧
    (Except.ok blockedResponse : Except (Nat × String) StatusResponse) ≠
      .error (404, "Task not found") := by
  exact ⟨rfl, by decide⟩

/-- C3 (amended): a task id absent from both the cache and storage yields a
404 error — in `api.py` provided the id is not deny-listed, and in the
Supabase variant unconditionally.  Reads consult the cache first: on a cache
hit the storage backend is irrelevant to the outcome. -/
theorem missing_task_404_cache_first :
    (∀ (cache storagef : String → Option TaskRecord) (tid : String),
        tid ∉ BLOCKED_TASK_IDS → cache tid = none → storagef tid = none →
        get_task_status cache storagef tid = .error (404, "Task not found")) ∧
    (∀ (cache storagef : String → Option TaskRecord) (tid : String),
        cache tid = none → storagef tid = none →
        get_task_status_sb cache storagef tid = .error (404, "Task not found")) ∧
    (∀ (cache storagef storagef' : String → Option TaskRecord)
        (tid : String) (r : TaskRecord), cache tid = some r →
        get_task_status cache storagef tid = get_task_status cache storagef' tid) ∧
    (∀ (cache storagef storagef' : String → Option TaskRecord)
        (tid : String) (r : TaskRecord), cache tid = some r →
        get_task_status_sb cache storagef tid = get_task_status_sb cache storagef' tid) := by
  refine ⟨?_, ?_, ?_, ?_⟩
  · intro c s tid hb hc hs
    simp [get_task_status, hb, hc, hs]
  · intro c s tid hc hs
    simp [get_task_status_sb, hc, hs]
  · intro c s s' tid r hc
    by_cases hb : tid ∈ BLOCKED_TASK_IDS
    · simp [get_task_status, hb]
    · simp [get_task_status, hb, hc]
  · intro c s s' tid r hc
    simp [get_task_status_sb, hc]

/-- Witness for `missing_task_404_cache_first`: the unknown id `"t"` misses
both stores and gets a 404 from the file-based endpoint. -/
theorem missing_task_404_cache_first_witness :
    get_task_status (fun _ => none) (fun _ => none) "t" =
      .error (404, "Task not found") :=
  missing_task_404_cache_first.1 (fun _ => none) (fun _ => none) "t"
    (by decide) rfl rfl

/-- C10: for every task record the status endpoints find, the response's
`result` field is a string: the stored result when present; the stored
message text (or `"Unknown error"` when the message is absent) when the
record has no result and status `error`; the empty string when the record has
no result and any other status. -/
theorem found_result_is_string :
    (∀ (cache storagef : String → Option TaskRecord) (tid : String)
        (r : TaskRecord), tid ∉ BLOCKED_TASK_IDS →
        (cache tid = some r ∨ (cache tid = none ∧ storagef tid = some r)) →
        get_task_status cache storagef tid = .ok (foundResponse r none) ∧
        (∃ s, (foundResponse r none).result = some s)) ∧
    (∀ (cache storagef : String → Option TaskRecord) (tid : String)
        (r : TaskRecord),
        (cache tid = some r ∨ (cache tid = none ∧ storagef tid = some r)) →
        get_task_status_sb cache storagef tid = .ok (foundResponse r (some tid)) ∧
        (∃ s, (foundResponse r (some tid)).result = some s)) ∧
    (∀ (r : TaskRecord) (tid : Option String),
        (∀ v, r.result = some v → (foundResponse r tid).result = some v) ∧
        (r.result = none → r.status = some "error" →
          (foundResponse r tid).result = some (r.message.getD "Unknown error")) ∧
        (r.result = none → r.status ≠ some "error" →
          (foundResponse r tid).result = some "")) := by
  refine ⟨?_, ?_, ?_⟩
  · intro c s tid r hb hfind
    refine ⟨?_, ⟨(normalizeRecord r).result.getD "", rfl⟩⟩
    rcases hfind with hc | ⟨hc, hs⟩
    · simp [get_task_status, hb, hc]
    · simp [get_task_status, hb, hc, hs]
  · intro c s tid r hfind
    refine ⟨?_, ⟨(normalizeRecord r).result.getD "", rfl⟩⟩
    rcases hfind with hc | ⟨hc, hs⟩
    · simp [get_task_status_sb, hc]
    · simp [get_task_status_sb, hc, hs]
  · intro r tid
    refine ⟨?_, ?_, ?_⟩
    · intro v hv
      simp [foundResponse, normalizeRecord, hv]
    · intro hres hst
      simp [foundResponse, normalizeRecord, hres, hst]
    · intro hres hst
      simp [foundResponse, normalizeRecord, hres, hst]

/-- Witness for `found_result_is_string`: a cached error record with no
result and no message is served with result `"Unknown error"`. -/
theorem found_result_is_string_witness :
    get_task_status (fun _ => some { status := some "error" }) (fun _ => none)
        "t" = .ok (foundResponse { status := some "error" } none) ∧
    (foundResponse ({ status := some "error" } : TaskRecord) none).result =
      some "Unknown error" := by
  refine ⟨(found_result_is_string.1 (fun _ => some { status := some "error" })
    (fun _ => none) "t" { status := some "error" } (by decide) (Or.inl rfl)).1, ?_⟩
  exact ((found_result_is_string.2.2 { status := some "error" } none).2.1 rfl rfl).trans
    (by rfl)

/-- Witness for `terminal_write_is_last`: in the file-based trace for a
successful run, the write preceding the final one is non-terminal. -/
theorem terminal_write_is_last_witness :
    isTerminal ((run_crew_task_writes true (Except.ok "r")).getD 0 default) = false :=
  terminal_write_is_last.1 true (Except.ok "r") 0 (by decide)

/-! ## The storage adapter of `src/api/api_supabase.py`

`save_task_status` / `load_task_status` try the hosted backend when it is
available and fall back to the per-task JSON file; `save_report` only ever
talks to the hosted backend.  Outcomes of the external calls are parameters:
`Except String β` is a call that may raise (`.error e`). -/

/-- Which path eventually served a storage operation. -/
inductive StoragePath where
  | hosted
  | localFile
  | failed
deriving DecidableEq, Repr

/-- The timestamping `save_task_status` applies before writing: set
`updated_at`, and initialise `created_at` to it when absent. -/
def stampRecord (r : TaskRecord) (now : String) : TaskRecord :=
  let r' := { r with updated_at := some now }
  if r'.created_at = none then { r' with created_at := some now } else r'

/-- Embedding of `save_task_status` (api_supabase.py): try Supabase when
available (falling through on a `False` return or an exception), then the
JSON file; the Bool is the value returned to the caller. -/
def save_task_status_sb (supabaseAvailable : Bool)
    (hostedSave : Except String Bool) (fileWriteOk : Bool) :
    Bool × StoragePath :=
  let fileFallback : Bool × StoragePath :=
    if fileWriteOk then (true, .localFile) else (false, .failed)
  if supabaseAvailable then
    match hostedSave with
    | .ok true => (true, .hosted)
    | .ok false => fileFallback
    | .error _ => fileFallback
  else fileFallback

/-- Embedding of `load_task_status` (api_supabase.py): try Supabase when
available (falling through on a falsy result or an exception), then the JSON
file (`none` when the file is missing or unreadable). -/
def load_task_status_sb (supabaseAvailable : Bool)
    (hostedLoad : Except String (Option TaskRecord))
    (fileLoad : Except String (Option TaskRecord)) :
    Option (TaskRecord × StoragePath) :=
  let fileFallback : Option (TaskRecord × StoragePath) :=
    match fileLoad with
    | .ok (some r) => some (r, .localFile)
    | _ => none
  if supabaseAvailable then
    match hostedLoad with
    | .ok (some r) => some (r, .hosted)
    | _ => fileFallback
  else fileFallback

/-- Embedding of `save_report` (api_supabase.py): Supabase only — when the
backend is unavailable or the save fails, it returns `False` without ever
touching the local filesystem (note the function has no filesystem
parameter at all). -/
def save_report_sb (supabaseAvailable : Bool)
    (hostedSave : Except String Bool) : Bool :=
  if !supabaseAvailable then false
  else
    match hostedSave with
    | .ok true => true
    | _ => false

/-! ## Theorems: C4 -/

/-- C4 counterexample: with the hosted backend unavailable, `save_report`
reports failure (`False`) even though a local Markdown write would succeed —
there is no filesystem fallback for reports (the hosted-save argument is
irrelevant as it is never attempted). -/
theorem save_report_no_fallback :
    save_report_sb false (.ok true) = false ∧ (false ≠ true) := by
  exact ⟨rfl, by decide⟩

/-- C4 (amended): task-status saves and loads attempt the hosted backend
first when available and fall back to the local JSON file on any failure
(a falsy return or an exception) or unavailability, surfacing failure only
when both paths fail; report saves, by contrast, are hosted-backend only and
report failure whenever it is unavailable or fails, with no local fallback. -/
theorem storage_fallback_policy :
    (∀ f : Bool, save_task_status_sb true (.ok true) f = (true, .hosted)) ∧
    (∀ (h : Except String Bool) (f : Bool), h ≠ .ok true →
        save_task_status_sb true h f =
          if f then (true, .localFile) else (false, .failed)) ∧
    (∀ (h : Except String Bool) (f : Bool),
        save_task_status_sb false h f =
          if f then (true, .localFile) else (false, .failed)) ∧
    (∀ (fl : Except String (Option TaskRecord)) (r : TaskRecord),
        load_task_status_sb true (.ok (some r)) fl = some (r, .hosted)) ∧
    (∀ (hl fl : Except String (Option TaskRecord)),
        (∀ r, hl ≠ .ok (some r)) →
        load_task_status_sb true hl fl =
          match fl with
          | .ok (some r) => some (r, .localFile)
          | _ => none) ∧
    (∀ (hl fl : Except String (Option TaskRecord)),
        load_task_status_sb false hl fl =
          match fl with
          | .ok (some r) => some (r, .localFile)
          | _ => none) ∧
    (∀ h : Except String Bool, save_report_sb false h = false) ∧
    (save_report_sb true (.ok true) = true ∧
      ∀ h : Except String Bool, h ≠ .ok true → save_report_sb true h = false) := by
  refine ⟨fun f => rfl, ?_, fun h f => rfl, fun fl r => rfl, ?_, fun hl fl => rfl,
    fun h => rfl, rfl, ?_⟩
  · intro h f hne
    cases h with
    | ok b =>
      cases b with
      | true => exact absurd rfl hne
      | false => rfl
    | error e => rfl
  · intro hl fl hne
    cases hl with
    | ok o =>
      cases o with
      | some r => exact absurd rfl (hne r)
      | none => rfl
    | error e => rfl
  · intro h hne
    cases h with
    | ok b =>
      cases b with
      | true => exact absurd rfl hne
      | false => rfl
    | error e => rfl

/-- Witness for `storage_fallback_policy`: a hosted save that raises falls
back to the JSON file and still reports success. -/
theorem storage_fallback_policy_witness :
    save_task_status_sb true (.error "connection refused") true =
      if true then (true, StoragePath.localFile) else (false, StoragePath.failed) :=
  storage_fallback_policy.2.1 (.error "connection refused") true (by decide)

/-! ## The run endpoint (`run_crew` in both API modules)

The handler's observable behaviour is the ordered list of effects it performs
before returning, plus the HTTP response.  The generated `uuid.uuid4()` is a
parameter `freshId`.  Note the Python code first stores the `initial_status`
dict in `task_results` and then passes the same dict to `save_task_status`,
which stamps timestamps into it in place — so the cache ends up holding the
stamped record too. -/

/-- One observable step of a run handler. -/
inductive Effect where
  | cachePut (id : String) (r : TaskRecord)
  | storagePut (id : String) (r : TaskRecord)
  | scheduleBG (id crewName goal : String)
deriving DecidableEq, Repr

/-- Embedding of `run_crew` from `src/api/api.py` (`POST /run-crew/`). -/
def run_crew (freshId crewName goal now : String) :
    List Effect × Except (Nat × String) StatusResponse :=
  let initial : TaskRecord :=
    { status := some "processing", message := some "Task started" }
  let stamped := stampRecord initial now
  ([.cachePut freshId stamped, .storagePut freshId stamped,
    .scheduleBG freshId crewName goal],
   .ok { status := "processing", message := some "Task started",
         task_id := some freshId })

/-- Embedding of `run_crew` from `src/api/api_supabase.py` (`POST /run`);
its body is identical, with `save_task_status` going through the storage
adapter instead of directly to a file. -/
def run_crew_sb (freshId crewName goal now : String) :
    List Effect × Except (Nat × String) StatusResponse :=
  let initial : TaskRecord :=
    { status := some "processing", message := some "Task started" }
  let stamped := stampRecord initial now
  ([.cachePut freshId stamped, .storagePut freshId stamped,
    .scheduleBG freshId crewName goal],
   .ok { status := "processing", message := some "Task started",
         task_id := some freshId })

/-! ## Theorems: C6 -/

/-- C6: for every run request, both handlers write one `processing` record
for the fresh task id to the in-memory cache and to persistent storage, in
that order, then schedule the background execution — all before returning —
and respond with status `processing` and the same task id. -/
theorem run_crew_spec :
    ∀ freshId crewName goal now : String,
      (∃ r : TaskRecord, r.status = some "processing" ∧
        (run_crew freshId crewName goal now).1 =
          [.cachePut freshId r, .storagePut freshId r,
           .scheduleBG freshId crewName goal] ∧
        (run_crew_sb freshId crewName goal now).1 =
          [.cachePut freshId r, .storagePut freshId r,
           .scheduleBG freshId crewName goal]) ∧
      (run_crew freshId crewName goal now).2 =
        .ok { status := "processing", result := none,
              message := some "Task started", task_id := some freshId } ∧
      (run_crew_sb freshId crewName goal now).2 =
        .ok { status := "processing", result := none,
              message := some "Task started", task_id := some freshId } := by
  intro freshId crewName goal now
  refine ⟨⟨stampRecord ⟨some "processing", none, some "Task started", none, none⟩ now,
    rfl, rfl, rfl⟩, rfl, rfl⟩

/-! ## `parse_markdown_to_json` (`src/api/api.py`)

The Python function folds over the lines of the text, mutating a dict
`sections` whose values are either a string (the `title` entry) or a list
mixing plain lines and subsection dicts.  The embedding reifies:
- the insertion-ordered dict as `List (String × MdValue)` with
  `dictSet` updating in place and appending new keys at the end;
- the mutable `current_subsection` alias (a dict that already sits inside
  its section's list and keeps receiving content) as a `pending` component
  that is materialised (`pFlush`) exactly when Python's alias stops being the
  last element of its list: at the next `##`/`###` heading and at the end;
- the one reachable crash (`sections[current_section].append(...)` when that
  value is the `title` string, an `AttributeError`) as `none`. -/

/-- An element of a section's list: a content line or a subsection dict. -/
inductive MdItem where
  | line (s : String)
  | sub (heading : String) (content : List String)
deriving DecidableEq, Repr

/-- A value of the `sections` dict: the `title` string or a section list. -/
inductive MdValue where
  | str (s : String)
  | list (items : List MdItem)
deriving DecidableEq, Repr

/-- Lookup in the insertion-ordered dict. -/
def dictGet : List (String × MdValue) → String → Option MdValue
  | [], _ => none
  | (k, v) :: rest, key => if k = key then some v else dictGet rest key

/-- Python `key in sections`. -/
def dictHas (d : List (String × MdValue)) (key : String) : Bool :=
  (dictGet d key).isSome

/-- Python `sections[key] = v`: update in place, append when new. -/
def dictSet : List (String × MdValue) → String → MdValue → List (String × MdValue)
  | [], key, v => [(key, v)]
  | (k, v') :: rest, key, v =>
    if k = key then (key, v) :: rest else (k, v') :: dictSet rest key v

/-- The `##` key normalisation: `line[3:].strip().lower().replace(" ", "_")`
(strip, then per-character lowercase with spaces turned to underscores). -/
def normKey (s : String) : String :=
  ⟨(pyStrip s).data.map (fun c => if c = ' ' then '_' else c.toLower)⟩

/-- The fold state of `parse_markdown_to_json`. -/
structure PState where
  sections : List (String × MdValue)
  cur : String
  pending : Option (String × String × List String)
deriving Repr

/-- The initial state: `title` and `content` pre-seeded, current section
`"overview"`, no subsection. -/
def pInit : PState :=
  ⟨[("title", .str ""), ("content", .list [])], "overview", none⟩

/-- Materialise the pending subsection dict at the end of its section's
list (the position Python's alias already occupies). -/
def pFlush (sections : List (String × MdValue)) :
    Option (String × String × List String) → List (String × MdValue)
  | none => sections
  | some (key, h, cont) =>
    match dictGet sections key with
    | some (.list items) => dictSet sections key (.list (items ++ [.sub h cont]))
    | _ => sections

/-- One line of the fold.  `none` models the `AttributeError` Python raises
when a `###` heading appends to the string-valued `title` entry. -/
def pStep (st : PState) (raw : String) : Option PState :=
  let line := pyRstrip raw
  if pyStarts line "# " then
    some { st with sections := dictSet st.sections "title" (.str (pyStrip (pyDrop line 2))) }
  else if pyStarts line "## " then
    let key := normKey (pyDrop line 3)
    let secs := pFlush st.sections st.pending
    let secs := if dictHas secs key then secs else dictSet secs key (.list [])
    some ⟨secs, key, none⟩
  else if pyStarts line "### " then
    let secs := pFlush st.sections st.pending
    let heading := pyStrip (pyDrop line 4)
    match dictGet secs st.cur with
    | some (.list _) => some ⟨secs, st.cur, some (st.cur, heading, [])⟩
    | some (.str _) => none
    | none => some ⟨dictSet secs st.cur (.list []), st.cur, some (st.cur, heading, [])⟩
  else if pyStrip line = "" then
    some st
  else
    match st.pending with
    | some (key, h, cont) =>
      some { st with pending := some (key, h, cont ++ [pyStrip line]) }
    | none =>
      match dictGet st.sections st.cur with
      | some (.list items) =>
        some { st with sections := dictSet st.sections st.cur (.list (items ++ [.line (pyStrip line)])) }
      | some (.str _) =>
        some { st with sections := dictSet st.sections st.cur (.list [.line (pyStrip line)]) }
      | none =>
        match dictGet st.sections "content" with
        | some (.list items) =>
          some { st with sections := dictSet st.sections "content" (.list (items ++ [.line (pyStrip line)])) }
        | _ => some st

/-- The final `{k: v for k, v in sections.items() if v}` comprehension:
drop falsy values (empty string, empty list). -/
def pruneSections (d : List (String × MdValue)) : List (String × MdValue) :=
  d.filter (fun p =>
    match p.2 with
    | .str s => !(s == "")
    | .list l => !l.isEmpty)

/-- Embedding of `parse_markdown_to_json`; `none` is an uncaught Python
exception. -/
def parse_markdown_to_json (text : String) : Option (List (String × MdValue)) :=
  ((linesOf text).foldlM pStep pInit).map
    (fun st => pruneSections (pFlush st.sections st.pending))

/-! ## The report endpoint -/

/-- What `get_report` in `src/api/api.py` returns: the raw Markdown string or
the `JSONResponse` with the parsed structure. -/
inductive ReportResponse where
  | markdown (content : String)
  | json (data : List (String × MdValue))
deriving DecidableEq, Repr

/-- Embedding of `get_report` (`GET /reports/{crew_name}`, api.py).
`reports name` is the content of `{name}_report.md` when that file exists.
A `format` whose lowercasing is `"json"` selects the parsed structure (a
parse exception escaping the handler is a 500); anything else returns the
Markdown as read. -/
def get_report (reports : String → Option String) (crew_name fmt : String) :
    Except (Nat × String) ReportResponse :=
  match reports crew_name with
  | none => .error (404, "Report for " ++ crew_name ++ " not found")
  | some content =>
    if pyLower fmt = "json" then
      match parse_markdown_to_json content with
      | some data => .ok (.json data)
      | none => .error (500, "Internal Server Error")
    else .ok (.markdown content)

/-- A report row of the Supabase variant. -/
structure SBReport where
  crew_name : Option String := none
  content : Option String := none
deriving DecidableEq, Repr

/-- What `get_report` in `src/api/api_supabase.py` returns for a found
report: the whole row, or `{"content": ...}` when `format == "json"`. -/
inductive SBReportResponse where
  | full (r : SBReport)
  | contentOnly (c : String)
deriving DecidableEq, Repr

/-- Embedding of `get_report` (`GET /reports/{report_identifier}`,
api_supabase.py).  `isUuid` is the `uuid.UUID(identifier)` validity check;
`byId` / `byName` are the two Supabase lookups.  `fmt = none` is an absent
`format` query parameter.  Note: `format == "json"` is compared exactly
(no lowercasing) and selects the raw content wrapped in a `content` field —
not a re-parsed structure. -/
def get_report_sb (isUuid : Bool) (byId : String → Option SBReport)
    (byName : String → Option String) (identifier : String)
    (fmt : Option String) : Except (Nat × String) SBReportResponse :=
  let report : Option SBReport :=
    if isUuid then byId identifier
    else
      match byName identifier with
      | some c => some { crew_name := some identifier, content := some c }
      | none => none
  match report with
  | some r =>
    if fmt = some "json" then .ok (.contentOnly (r.content.getD ""))
    else .ok (.full r)
  | none =>
    .error (404, "Report with identifier '" ++ identifier ++ "' not found")

/-! ## Theorems: C7 -/

/-- C7 counterexample: `format=JSON` (uppercase) is not the literal string
`json`, yet `api.py` returns the re-parsed JSON structure, not the raw
Markdown, because it lowercases the parameter before comparing. -/
theorem get_report_uppercase_json :
    get_report (fun n => if n = "c" then some "# T" else none) "c" "JSON" =
      .ok (.json [("title", .str "T")]) ∧
    ReportResponse.json [("title", MdValue.str "T")] ≠ .markdown "# T" := by
  exact ⟨rfl, by decide⟩

/-- C7 (amended): in `api.py`, a `format` value is compared lowercased:
anything not lowercasing to `json` (including the default `markdown` used
when the parameter is absent) returns the raw Markdown, and anything
lowercasing to `json` returns the re-parsed structure.  The Supabase
variant instead compares `format == "json"` exactly and returns the raw
content wrapped in a `content` field for `json`, and the whole report row
otherwise. -/
theorem report_format_negotiation :
    (∀ (reports : String → Option String) (name fmt content : String),
        reports name = some content → pyLower fmt ≠ "json" →
        get_report reports name fmt = .ok (.markdown content)) ∧
    (∀ (reports : String → Option String) (name fmt content : String)
        (data : List (String × MdValue)),
        reports name = some content → pyLower fmt = "json" →
        parse_markdown_to_json content = some data →
        get_report reports name fmt = .ok (.json data)) ∧
    (∀ (byId : String → Option SBReport) (byName : String → Option String)
        (identifier : String) (fmt : Option String) (r : SBReport),
        byId identifier = some r →
        get_report_sb true byId byName identifier fmt =
          if fmt = some "json" then .ok (.contentOnly (r.content.getD ""))
          else .ok (.full r)) ∧
    (∀ (byId : String → Option SBReport) (byName : String → Option String)
        (identifier : String) (fmt : Option String) (c : String),
        byName identifier = some c →
        get_report_sb false byId byName identifier fmt =
          if fmt = some "json" then .ok (.contentOnly c)
          else .ok (.full { crew_name := some identifier, content := some c })) := by
  refine ⟨?_, ?_, ?_, ?_⟩
  · intro reports name fmt content hc hfmt
    simp [get_report, hc, hfmt]
  · intro reports name fmt content data hc hfmt hp
    simp [get_report, hc, hfmt, hp]
  · intro byId byName identifier fmt r hr
    by_cases hf : fmt = some "json" <;> simp [get_report_sb, hr, hf]
  · intro byId byName identifier fmt c hc
    by_cases hf : fmt = some "json" <;> simp [get_report_sb, hc, hf]

/-- Witness for `report_format_negotiation`: the default format value
`markdown` returns the raw content. -/
theorem report_format_negotiation_witness :
    get_report (fun n => if n = "w" then some "body" else none) "w" "markdown" =
      .ok (.markdown "body") :=
  report_format_negotiation.1 (fun n => if n = "w" then some "body" else none)
    "w" "markdown" "body" rfl (by decide)

/-! ## Theorems: C9 -/

/-- The read path of `get_report` threaded through the report store state:
the handler only opens the file for reading, so the state is returned
unchanged. -/
def get_report_st (reports : String → Option String) (crew_name fmt : String) :
    Except (Nat × String) ReportResponse × (String → Option String) :=
  (get_report reports crew_name fmt, reports)

/-- `n` successive fetches of the same report in `json` format, each one
reading the store state left by the previous fetch. -/
def fetch_json_times : Nat → (String → Option String) → String →
    List (Except (Nat × String) ReportResponse)
  | 0, _, _ => []
  | n + 1, fs, name =>
    let p := get_report_st fs name "json"
    p.1 :: fetch_json_times n p.2 name

/-- C9: fetching a report in `json` format never modifies the report store,
and any number of successive fetches without an intervening save all return
the same content as the first. -/
theorem fetch_json_idempotent :
    (∀ (fs : String → Option String) (name : String),
        (get_report_st fs name "json").2 = fs) ∧
    (∀ (n : Nat) (fs : String → Option String) (name : String)
        (r : Except (Nat × String) ReportResponse),
        r ∈ fetch_json_times n fs name → r = get_report fs name "json") := by
  constructor
  · intro fs name
    rfl
  · intro n
    induction n with
    | zero =>
      intro fs name r hr
      simp [fetch_json_times] at hr
    | succ m ih =>
      intro fs name r hr
      rcases (by simpa [fetch_json_times] using hr) with h | h
      · simpa [get_report_st] using h
      · exact ih fs name r h

/-- Witness for `fetch_json_idempotent`: a response occurring among three
successive fetches of a concrete stored report equals the first fetch. -/
theorem fetch_json_idempotent_witness :
    (Except.ok (ReportResponse.json [("title", MdValue.str "T")]) :
        Except (Nat × String) ReportResponse) =
      get_report (fun n => if n = "c" then some "# T" else none) "c" "json" :=
  fetch_json_idempotent.2 3 (fun n => if n = "c" then some "# T" else none) "c" _
    (by decide)

/-! ## The specification-side view of `parse_markdown_to_json` (for C8)

The claim describes the conversion in terms of four separated notions — a
`title` taken from the level-1 heading, a `content` bucket of lines before
any section, keyed sections collecting their lines, and nested subsection
records — with empty keys removed at the end.  `SState` keeps those four
notions apart (instead of the code's single untyped dict), `sStep` advances
them line by line following the claim's description, and
`spec_markdown_structure` assembles the final mapping from them.  The C8
theorem proves the code's parser equal to this view whenever no level-2
heading collides with the two reserved keys. -/

/-- The claim-side parse state: title, pre-section content, keyed sections
(in creation order, a repeated heading reusing its key), the currently open
section key (`none` before any heading opens one), and the currently open
subsection (heading and collected lines). -/
structure SState where
  title : String
  preamble : List String
  secs : List (String × List MdItem)
  openKey : Option String
  pendingSub : Option (String × List String)
deriving Repr

/-- Before any line: no title, no content, no sections. -/
def sInit : SState := ⟨"", [], [], none, none⟩

/-- Look a section up by key. -/
def secGet : List (String × List MdItem) → String → Option (List MdItem)
  | [], _ => none
  | (k, items) :: rest, key => if k = key then some items else secGet rest key

/-- Replace a section's items (first occurrence), appending when new. -/
def secSet : List (String × List MdItem) → String → List MdItem →
    List (String × List MdItem)
  | [], key, v => [(key, v)]
  | (k, items) :: rest, key, v =>
    if k = key then (key, v) :: rest else (k, items) :: secSet rest key v

/-- Append one item to an existing section, leaving the list unchanged when
the key is absent. -/
def secAppendItem (secs : List (String × List MdItem)) (key : String)
    (it : MdItem) : List (String × List MdItem) :=
  match secGet secs key with
  | some items => secSet secs key (items ++ [it])
  | none => secs

/-- Close the open subsection, appending its record to the enclosing
section (the implicit `overview` section when none is open). -/
def sFlush (secs : List (String × List MdItem)) (openKey : Option String) :
    Option (String × List String) → List (String × List MdItem)
  | none => secs
  | some (h, cont) => secAppendItem secs (openKey.getD "overview") (.sub h cont)

/-- One line of the claim-side description: a level-1 heading sets the
title; a level-2 heading closes the open subsection and opens (or reopens)
the section keyed by its normalised text; a level-3 heading starts a nested
record in the enclosing section (opening `overview` when none is open);
a non-blank line joins the open subsection, else the open section, else the
pre-section content; blank lines are dropped. -/
def sStep (s : SState) (raw : String) : SState :=
  let line := pyRstrip raw
  if pyStarts line "# " then { s with title := pyStrip (pyDrop line 2) }
  else if pyStarts line "## " then
    let key := normKey (pyDrop line 3)
    let secs := sFlush s.secs s.openKey s.pendingSub
    { s with secs := if (secGet secs key).isSome then secs else secs ++ [(key, [])],
             openKey := some key, pendingSub := none }
  else if pyStarts line "### " then
    let secs := sFlush s.secs s.openKey s.pendingSub
    let key := s.openKey.getD "overview"
    { s with secs := if (secGet secs key).isSome then secs else secs ++ [(key, [])],
             openKey := some key,
             pendingSub := some (pyStrip (pyDrop line 4), []) }
  else if pyStrip line = "" then s
  else
    match s.pendingSub with
    | some (h, cont) => { s with pendingSub := some (h, cont ++ [pyStrip line]) }
    | none =>
      match s.openKey with
      | some k => { s with secs := secAppendItem s.secs k (.line (pyStrip line)) }
      | none => { s with preamble := s.preamble ++ [pyStrip line] }

/-- The mapping the claim describes: `title` first when non-empty, then the
pre-section lines under `content` when any, then each section in creation
order with its collected items, empty sections removed. -/
def spec_markdown_structure (text : String) : List (String × MdValue) :=
  let s := (linesOf text).foldl sStep sInit
  let secs := sFlush s.secs s.openKey s.pendingSub
  (if s.title = "" then [] else [("title", MdValue.str s.title)]) ++
  (if s.preamble.isEmpty then [] else
    [("content", MdValue.list (s.preamble.map MdItem.line))]) ++
  (secs.filter (fun p => !p.2.isEmpty)).map (fun p => (p.1, MdValue.list p.2))

/-- A line is collision-free when, if it is a level-2 heading, its
normalised key is neither of the reserved keys `title` and `content`. -/
def okLine (raw : String) : Bool :=
  !(pyStarts (pyRstrip raw) "## ") ||
    (normKey (pyDrop (pyRstrip raw) 3) != "title" &&
     normKey (pyDrop (pyRstrip raw) 3) != "content")

/-- How a claim-side section appears in the code-side dict. -/
def embSec (p : String × List MdItem) : String × MdValue :=
  (p.1, MdValue.list p.2)

/-- The code-side dict a claim-side state denotes: `title` and `content`
sit in their pre-seeded first two slots, the sections follow in order. -/
def toSections (s : SState) : List (String × MdValue) :=
  ("title", MdValue.str s.title) ::
  ("content", MdValue.list (s.preamble.map MdItem.line)) ::
  s.secs.map embSec

/-- The full code-side state a claim-side state denotes. -/
def toPState (s : SState) : PState :=
  { sections := toSections s,
    cur := s.openKey.getD "overview",
    pending := s.pendingSub.map (fun p => (s.openKey.getD "overview", p.1, p.2)) }

/-- Invariant of reachable claim-side states: an open key is a real,
non-reserved section, and before any section opens there is no open
subsection and no `overview` section yet. -/
def SInv (s : SState) : Prop :=
  (∀ k, s.openKey = some k →
    (secGet s.secs k).isSome = true ∧ k ≠ "title" ∧ k ≠ "content") ∧
  (s.openKey = none → s.pendingSub = none ∧ secGet s.secs "overview" = none)

/-! Correspondence lemmas between the code-side dict operations and the
claim-side section operations. -/

theorem dictGet_map_secs (secs : List (String × List MdItem)) (k : String) :
    dictGet (secs.map embSec) k = (secGet secs k).map MdValue.list := by
  induction secs with
  | nil => rfl
  | cons p rest ih =>
    obtain ⟨k', items⟩ := p
    by_cases h : k' = k
    · simp [embSec, dictGet, secGet, h]
    · simp [embSec, dictGet, secGet, h, ih]

theorem dictSet_map_secs (secs : List (String × List MdItem)) (k : String)
    (v : List MdItem) :
    dictSet (secs.map embSec) k (MdValue.list v) = (secSet secs k v).map embSec := by
  induction secs with
  | nil => rfl
  | cons p rest ih =>
    obtain ⟨k', items⟩ := p
    by_cases h : k' = k
    · simp [embSec, dictSet, secSet, h]
    · simp [embSec, dictSet, secSet, h, ih]

theorem secSet_of_absent (secs : List (String × List MdItem)) (k : String)
    (v : List MdItem) (h : secGet secs k = none) :
    secSet secs k v = secs ++ [(k, v)] := by
  induction secs with
  | nil => rfl
  | cons p rest ih =>
    obtain ⟨k', items⟩ := p
    by_cases hk : k' = k
    · simp [secGet, hk] at h
    · simp [secGet, hk] at h
      simp [secSet, hk, ih h]

theorem secGet_secSet_self (secs : List (String × List MdItem)) (k : String)
    (v : List MdItem) : secGet (secSet secs k v) k = some v := by
  induction secs with
  | nil => simp [secSet, secGet]
  | cons p rest ih =>
    obtain ⟨k', items⟩ := p
    by_cases hk : k' = k
    · simp [secSet, secGet, hk]
    · simp [secSet, secGet, hk, ih]

theorem secGet_secSet_ne (secs : List (String × List MdItem)) (k k' : String)
    (v : List MdItem) (h : k ≠ k') : secGet (secSet secs k' v) k = secGet secs k := by
  induction secs with
  | nil => simp [secSet, secGet, Ne.symm h]
  | cons p rest ih =>
    obtain ⟨ka, items⟩ := p
    by_cases hk : ka = k'
    · subst hk
      simp [secSet, secGet, Ne.symm h]
    · by_cases hk2 : ka = k
      · simp [secSet, secGet, hk, hk2, h]
      · simp [secSet, secGet, hk, hk2, ih]

theorem secGet_isSome_secAppendItem (secs : List (String × List MdItem))
    (k k' : String) (it : MdItem) (h : (secGet secs k).isSome = true) :
    (secGet (secAppendItem secs k' it) k).isSome = true := by
  unfold secAppendItem
  cases hg : secGet secs k' with
  | none => exact h
  | some items =>
    by_cases hk : k = k'
    · subst hk
      rw [secGet_secSet_self]
      rfl
    · rw [secGet_secSet_ne _ _ _ _ hk]
      exact h

theorem secGet_isSome_sFlush (secs : List (String × List MdItem))
    (openKey : Option String) (pending : Option (String × List String))
    (k : String) (h : (secGet secs k).isSome = true) :
    (secGet (sFlush secs openKey pending) k).isSome = true := by
  cases pending with
  | none => exact h
  | some p =>
    obtain ⟨h0, cont⟩ := p
    exact secGet_isSome_secAppendItem _ _ _ _ h

theorem dictGet_toSections (s : SState) (k : String) (h1 : k ≠ "title")
    (h2 : k ≠ "content") :
    dictGet (toSections s) k = (secGet s.secs k).map MdValue.list := by
  simp [toSections, dictGet, Ne.symm h1, Ne.symm h2, dictGet_map_secs]

theorem dictSet_toSections (s : SState) (k : String) (v : List MdItem)
    (h1 : k ≠ "title") (h2 : k ≠ "content") :
    dictSet (toSections s) k (MdValue.list v) =
      toSections { s with secs := secSet s.secs k v } := by
  simp [toSections, dictSet, Ne.symm h1, Ne.symm h2, dictSet_map_secs]

theorem pFlush_some_list (sections : List (String × MdValue)) (key h0 : String)
    (cont : List String) (items : List MdItem)
    (hget : dictGet sections key = some (MdValue.list items)) :
    pFlush sections (some (key, h0, cont)) =
      dictSet sections key (MdValue.list (items ++ [MdItem.sub h0 cont])) := by
  simp only [pFlush]
  rw [hget]

theorem pFlush_toSections (s : SState) (h : SInv s) :
    pFlush (toSections s)
        (s.pendingSub.map (fun p => (s.openKey.getD "overview", p.1, p.2))) =
      toSections { s with secs := sFlush s.secs s.openKey s.pendingSub } := by
  cases hp : s.pendingSub with
  | none => rfl
  | some p =>
    obtain ⟨h0, cont⟩ := p
    cases hok : s.openKey with
    | none =>
      obtain ⟨hpn, _⟩ := h.2 hok
      rw [hp] at hpn
      exact absurd hpn (by simp)
    | some k =>
      obtain ⟨hmem, ht, hc⟩ := h.1 k hok
      obtain ⟨items, hitems⟩ := Option.isSome_iff_exists.mp hmem
      simp only [Option.map_some', Option.getD_some]
      rw [pFlush_some_list (toSections s) k h0 cont items
        (by rw [dictGet_toSections s k ht hc, hitems]; rfl)]
      rw [dictSet_toSections s k (items ++ [MdItem.sub h0 cont]) ht hc]
      simp only [sFlush, secAppendItem, hitems, Option.getD_some]
      rfl

theorem pStep_toPState (s : SState) (raw : String) (h : SInv s)
    (hok : okLine raw = true) :
    pStep (toPState s) raw = some (toPState (sStep s raw)) ∧ SInv (sStep s raw) := by
  cases h1 : pyStarts (pyRstrip raw) "# " with
  | true =>
    have hs : sStep s raw = { s with title := pyStrip (pyDrop (pyRstrip raw) 2) } := by
      simp [sStep, h1]
    refine ⟨?_, ?_⟩
    · rw [hs]
      simp [pStep, h1, toPState, toSections, dictSet]
    · rw [hs]
      exact h
  | false =>
  cases h2 : pyStarts (pyRstrip raw) "## " with
  | true =>
    have hkey : normKey (pyDrop (pyRstrip raw) 3) ≠ "title" ∧
        normKey (pyDrop (pyRstrip raw) 3) ≠ "content" := by
      simpa [okLine, h2, bne_iff_ne] using hok
    obtain ⟨ht, hc⟩ := hkey
    cases hg : secGet (sFlush s.secs s.openKey s.pendingSub)
        (normKey (pyDrop (pyRstrip raw) 3)) with
    | some items =>
      have hs : sStep s raw =
          { s with secs := sFlush s.secs s.openKey s.pendingSub,
                   openKey := some (normKey (pyDrop (pyRstrip raw) 3)),
                   pendingSub := none } := by
        simp [sStep, h1, h2, hg]
      refine ⟨?_, ?_⟩
      · rw [hs]
        simp only [pStep, h1, h2, toPState]
        rw [pFlush_toSections s h]
        have hhas : dictHas
            (toSections { s with secs := sFlush s.secs s.openKey s.pendingSub })
            (normKey (pyDrop (pyRstrip raw) 3)) = true := by
          simp [dictHas, dictGet_toSections _ _ ht hc, hg]
        simp [hhas]
        rfl
      · rw [hs]
        refine ⟨?_, ?_⟩
        · intro k0 hk0
          obtain rfl : normKey (pyDrop (pyRstrip raw) 3) = k0 := by
            simpa using hk0
          exact ⟨by simp [hg], ht, hc⟩
        · intro hn
          exact absurd hn (by simp)
    | none =>
      have hs : sStep s raw =
          { s with secs := sFlush s.secs s.openKey s.pendingSub ++
                     [(normKey (pyDrop (pyRstrip raw) 3), [])],
                   openKey := some (normKey (pyDrop (pyRstrip raw) 3)),
                   pendingSub := none } := by
        simp [sStep, h1, h2, hg]
      refine ⟨?_, ?_⟩
      · rw [hs]
        simp only [pStep, h1, h2, toPState]
        rw [pFlush_toSections s h]
        have hhas : dictHas
            (toSections { s with secs := sFlush s.secs s.openKey s.pendingSub })
            (normKey (pyDrop (pyRstrip raw) 3)) = false := by
          simp [dictHas, dictGet_toSections _ _ ht hc, hg]
        simp [hhas]
        rw [dictSet_toSections _ _ ([] : List MdItem) ht hc,
          secSet_of_absent _ _ _ hg]
        rfl
      · rw [hs]
        refine ⟨?_, ?_⟩
        · intro k0 hk0
          obtain rfl : normKey (pyDrop (pyRstrip raw) 3) = k0 := by
            simpa using hk0
          refine ⟨?_, ht, hc⟩
          rw [← secSet_of_absent _ _ ([] : List MdItem) hg, secGet_secSet_self]
          rfl
        · intro hn
          exact absurd hn (by simp)
  | false =>
  cases h3 : pyStarts (pyRstrip raw) "### " with
  | true =>
    cases hokey : s.openKey with
    | some k =>
      obtain ⟨hmem, ht, hc⟩ := h.1 k hokey
      have hmemF := secGet_isSome_sFlush s.secs s.openKey s.pendingSub k hmem
      obtain ⟨items, hg⟩ := Option.isSome_iff_exists.mp hmemF
      have hg' : secGet (sFlush s.secs (some k) s.pendingSub) k = some items := by
        rw [← hokey]
        exact hg
      have hs : sStep s raw =
          { s with
            secs := sFlush s.secs (some k) s.pendingSub,
            openKey := some k,
            pendingSub := some (pyStrip (pyDrop (pyRstrip raw) 4), []) } := by
        simp [sStep, h1, h2, h3, hokey, hg']
      refine ⟨?_, ?_⟩
      · rw [hs]
        simp only [pStep, toPState]
        rw [pFlush_toSections s h]
        simp only [hokey, Option.getD_some]
        rw [dictGet_toSections _ _ ht hc]
        simp only [hg', Option.map_some']
        simp [h1, h2, h3]
        rfl
      · rw [hs]
        refine ⟨?_, ?_⟩
        · intro k0 hk0
          obtain rfl : k = k0 := by simpa using hk0
          exact ⟨by simp [hg'], ht, hc⟩
        · intro hn
          exact absurd hn (by simp)
    | none =>
      obtain ⟨hpn, hov⟩ := h.2 hokey
      have hs : sStep s raw =
          { s with secs := s.secs ++ [("overview", [])],
                   openKey := some "overview",
                   pendingSub := some (pyStrip (pyDrop (pyRstrip raw) 4), []) } := by
        simp [sStep, h1, h2, h3, hokey, hpn, sFlush, hov]
      refine ⟨?_, ?_⟩
      · rw [hs]
        simp only [pStep, toPState, hokey, hpn, Option.getD_none, Option.map_none']
        simp only [pFlush]
        rw [dictGet_toSections s "overview" (by decide) (by decide), hov]
        simp only [Option.map_none']
        rw [dictSet_toSections s "overview" [] (by decide) (by decide)]
        rw [secSet_of_absent _ _ _ hov]
        simp [h1, h2, h3]
        rfl
      · rw [hs]
        refine ⟨?_, ?_⟩
        · intro k0 hk0
          obtain rfl : "overview" = k0 := by simpa using hk0
          refine ⟨?_, by decide, by decide⟩
          rw [← secSet_of_absent _ _ ([] : List MdItem) hov, secGet_secSet_self]
          rfl
        · intro hn
          exact absurd hn (by simp)
  | false =>
  by_cases h4 : pyStrip (pyRstrip raw) = ""
  · have hs : sStep s raw = s := by
      simp [sStep, h1, h2, h3, h4]
    refine ⟨?_, ?_⟩
    · rw [hs]
      simp [pStep, h1, h2, h3, h4]
    · rw [hs]
      exact h
  · cases hp : s.pendingSub with
    | some p =>
      obtain ⟨h0, cont⟩ := p
      have hs : sStep s raw =
          { s with
            pendingSub := some (h0, cont ++ [pyStrip (pyRstrip raw)]) } := by
        simp [sStep, h1, h2, h3, h4, hp]
      refine ⟨?_, ?_⟩
      · rw [hs]
        simp [pStep, h1, h2, h3, h4, toPState, hp]
        rfl
      · rw [hs]
        refine ⟨?_, ?_⟩
        · intro k0 hk0
          exact h.1 k0 hk0
        · intro hn
          have := (h.2 hn).1
          rw [hp] at this
          exact absurd this (by simp)
    | none =>
      cases hokey : s.openKey with
      | some k =>
        obtain ⟨hmem, ht, hc⟩ := h.1 k hokey
        obtain ⟨items, hg⟩ := Option.isSome_iff_exists.mp hmem
        have hs : sStep s raw =
            { s with
              secs := secSet s.secs k
                (items ++ [MdItem.line (pyStrip (pyRstrip raw))]) } := by
          simp [sStep, h1, h2, h3, h4, hp, hokey, secAppendItem, hg]
        refine ⟨?_, ?_⟩
        · rw [hs]
          simp only [pStep, h1, h2, h3, toPState, hokey, hp, Option.getD_some,
            Option.map_none']
          rw [dictGet_toSections _ _ ht hc, hg]
          simp only [Option.map_some']
          rw [dictSet_toSections _ _ _ ht hc]
          simp [h4]
          rfl
        · rw [hs]
          refine ⟨?_, ?_⟩
          · intro k0 hk0
            obtain rfl : k = k0 := by
              rw [hokey] at hk0
              simpa using hk0
            refine ⟨?_, ht, hc⟩
            rw [secGet_secSet_self]
            rfl
          · intro hn
            rw [hokey] at hn
            exact absurd hn (by simp)
      | none =>
        obtain ⟨hpn, hov⟩ := h.2 hokey
        have hs : sStep s raw =
            { s with preamble := s.preamble ++ [pyStrip (pyRstrip raw)] } := by
          simp [sStep, h1, h2, h3, h4, hp, hokey]
        refine ⟨?_, ?_⟩
        · rw [hs]
          simp only [pStep, h1, h2, h3, toPState, hokey, hp, Option.getD_none,
            Option.map_none']
          rw [dictGet_toSections s "overview" (by decide) (by decide), hov]
          simp only [Option.map_none']
          simp [h4, toSections, dictGet, dictSet]
        · rw [hs]
          refine ⟨?_, ?_⟩
          · intro k0 hk0
            rw [hokey] at hk0
            exact absurd hk0 (by simp)
          · intro hn
            exact ⟨hp, hov⟩

theorem foldlM_pStep_toPState :
    ∀ (ls : List String) (s : SState), SInv s →
      (∀ raw ∈ ls, okLine raw = true) →
      ls.foldlM pStep (toPState s) = some (toPState (ls.foldl sStep s)) ∧
      SInv (ls.foldl sStep s) := by
  intro ls
  induction ls with
  | nil =>
    intro s hs _
    exact ⟨rfl, hs⟩
  | cons a ls ih =>
    intro s hs hok
    obtain ⟨h1, h2⟩ := pStep_toPState s a hs (hok a (by simp))
    have hrest := ih (sStep s a) h2 (fun raw hr => hok raw (by simp [hr]))
    refine ⟨?_, by simpa using hrest.2⟩
    simp only [List.foldlM_cons, h1, List.foldl_cons]
    simpa using hrest.1

theorem pruneSections_map_embSec (l : List (String × List MdItem)) :
    pruneSections (l.map embSec) = (l.filter (fun p => !p.2.isEmpty)).map embSec := by
  induction l with
  | nil => rfl
  | cons p rest ih =>
    obtain ⟨k, items⟩ := p
    cases items with
    | nil => simpa [pruneSections, embSec, List.filter_cons] using ih
    | cons x xs =>
      simp only [pruneSections, embSec, List.map_cons, List.filter_cons] at ih ⊢
      simp [ih]
      rfl

theorem prune_final (s : SState) (h : SInv s) :
    pruneSections (pFlush (toSections s)
        (s.pendingSub.map (fun p => (s.openKey.getD "overview", p.1, p.2)))) =
      (if s.title = "" then [] else [("title", MdValue.str s.title)]) ++
      (if s.preamble.isEmpty then [] else
        [("content", MdValue.list (s.preamble.map MdItem.line))]) ++
      ((sFlush s.secs s.openKey s.pendingSub).filter
        (fun p => !p.2.isEmpty)).map embSec := by
  rw [pFlush_toSections s h]
  have hmap := pruneSections_map_embSec (sFlush s.secs s.openKey s.pendingSub)
  by_cases hT : s.title = ""
  · cases hP : s.preamble with
    | nil =>
      simp only [pruneSections, toSections, List.filter_cons] at hmap ⊢
      simp [hT, hP, hmap]
    | cons y ys =>
      simp only [pruneSections, toSections, List.filter_cons] at hmap ⊢
      simp [hT, hP, hmap]
  · cases hP : s.preamble with
    | nil =>
      simp only [pruneSections, toSections, List.filter_cons] at hmap ⊢
      simp [hT, hP, hmap]
    | cons y ys =>
      simp only [pruneSections, toSections, List.filter_cons] at hmap ⊢
      simp [hT, hP, hmap]

/-! ## Theorems: C8 -/

/-- C8 counterexample: on `"# A\n## Title\nx"` the level-2 heading `Title`
normalises to the reserved key `title`, and the later content line replaces
the stored level-1 heading text, so the `title` value of the result is the
section list `[x]`, not the level-1 heading text `A` the claim promises. -/
theorem parse_markdown_title_clobbered :
    parse_markdown_to_json "# A\n## Title\nx" =
      some [("title", MdValue.list [MdItem.line "x"])] ∧
    dictGet [("title", MdValue.list [MdItem.line "x"])] "title" ≠
      some (MdValue.str "A") := by
  exact ⟨rfl, by decide⟩

/-- C8 (amended): for every Markdown text none of whose level-2 headings
normalises (lowercased, spaces to underscores) to the reserved keys `title`
or `content`, the conversion returns (without raising) exactly the mapping
the claim describes: the (last) level-1 heading's text under `title` when
non-empty, the lines before any section under `content` when any, and each
level-2 heading's key collecting that section's lines with each level-3
heading a nested `heading`/`content` record appended to the enclosing
section (an implicit `overview` section when none is open yet), empty keys
removed.  (Without the restriction the claim fails: see the
counterexample.) -/
theorem parse_markdown_to_json_spec :
    ∀ text : String, (∀ raw ∈ linesOf text, okLine raw = true) →
      parse_markdown_to_json text = some (spec_markdown_structure text) := by
  intro text hok
  have hinit : SInv sInit := by
    refine ⟨fun k hk => ?_, fun _ => ⟨rfl, rfl⟩⟩
    simp [sInit] at hk
  obtain ⟨hfold, hinv⟩ := foldlM_pStep_toPState (linesOf text) sInit hinit hok
  unfold parse_markdown_to_json spec_markdown_structure
  rw [show pInit = toPState sInit from rfl, hfold]
  simp only [Option.map_some']
  exact congrArg some (prune_final _ hinv)

/-- Witness for `parse_markdown_to_json_spec` on a concrete report whose
section headings avoid the reserved keys. -/
theorem parse_markdown_to_json_spec_witness :
    parse_markdown_to_json "pre\n# T\n## Sec One\nhello\n### Sub A\nw1" =
      some (spec_markdown_structure "pre\n# T\n## Sec One\nhello\n### Sub A\nw1") :=
  parse_markdown_to_json_spec "pre\n# T\n## Sec One\nhello\n### Sub A\nw1" (by decide)

end CrewAPI
